import Mathlib

/-!
Shallow embedding of `OpenIDProvider.authenticate`
(`mealie/core/security/providers/openid_provider.py`).

The method consumes a map of validated OIDC claims plus the process-wide
settings, looks up or provisions a local user through the user repository,
optionally synchronizes the admin flag from group claims, and returns an
access token or `None`.

External collaborators that are not part of the source file
(`try_get_user`, `repos.users.create` / `update`, `session.commit`,
`get_access_token`) are modelled as an oracle `Env` supplying the outcome
of each call; `authenticate` itself is translated line by line.  The
result is an `Except Unit (Option AccessToken)` (where `Except.error`
means an uncaught Python exception propagating to the caller) paired with
the list of repository/session effects performed, in order.
-/

/-- Value of a single OIDC claim: JSON null / absent-default (`None` in
Python), a string, or a list of strings.  `vnull` doubles as Python's
`None`, which is what `dict.get` returns for an absent key. -/
inductive ClaimValue where
  | vnull : ClaimValue
  | vstr : String → ClaimValue
  | vlist : List String → ClaimValue
  deriving DecidableEq, Repr

/-- The claims mapping (`UserInfo` is dict-like); modelled as an
association list, first binding wins. -/
def Claims : Type := List (String × ClaimValue)

instance : DecidableEq Claims := by
  unfold Claims
  infer_instance

/-- Python truthiness of a claim value (`None`, `""` and `[]` are falsy). -/
def truthy : ClaimValue → Bool
  | .vnull => false
  | .vstr s => !(s == "")
  | .vlist l => !l.isEmpty

/-- Whether `needle` starts `hay` (character lists). -/
def leadEq : List Char → List Char → Bool
  | [], _ => true
  | _ :: _, [] => false
  | a :: as, b :: bs => a == b && leadEq as bs

/-- Whether `needle` occurs contiguously inside `hay` (character lists);
this is Python's `x in s` for strings. -/
def subOccurs (needle : List Char) : List Char → Bool
  | [] => leadEq needle []
  | c :: t => leadEq needle (c :: t) || subOccurs needle t

/-- Python's `x in v` for the claim values we model: element membership
for a list, substring for a string. -/
def pyIn (x : String) : ClaimValue → Bool
  | .vnull => false
  | .vstr s => subOccurs x.toList s.toList
  | .vlist l => l.contains x

/-- Whether the claims mapping has key `k` (`k in claims.keys()`). -/
def hasKey (c : Claims) (k : String) : Bool :=
  c.any (fun p => p.1 == k)

/-- Python `claims.get(k, d)`: the stored value when the key is present
(even when that value is null), otherwise the default `d`. -/
def cget (c : Claims) (k : String) (d : ClaimValue) : ClaimValue :=
  match c.find? (fun p => p.1 == k) with
  | some p => p.2
  | none => d

/-- Auth-method tag of a user record (`AuthMethod` enum). -/
inductive AuthMethod where
  | MEALIE : AuthMethod
  | LDAP : AuthMethod
  | OIDC : AuthMethod
  deriving DecidableEq, Repr

/-- The slice of a stored user record that `authenticate` reads or
writes: its id and admin flag. -/
structure User where
  id : Nat
  admin : Bool
  deriving DecidableEq, Repr

/-- The dictionary passed to `repos.users.create` in the provisioning
branch, field by field. -/
structure UserCreate where
  username : ClaimValue
  password : String
  full_name : ClaimValue
  email : ClaimValue
  admin : Bool
  auth_method : AuthMethod
  deriving DecidableEq, Repr

/-- The session artifact returned by `get_access_token(user, remember)`:
abstractly, the user it was issued for and the remember-me flag. -/
structure AccessToken where
  user : User
  remember_me : Bool
  deriving DecidableEq, Repr

/-- Repository / session effects `authenticate` can perform, in order of
execution. `warnDefensive` marks the final defensive log-and-refuse
branch. -/
inductive Event where
  | lookup : ClaimValue → Event
  | create : UserCreate → Event
  | commit : Event
  | update : Nat → User → Event
  | warnDefensive : Event
  deriving DecidableEq, Repr

/-- The OIDC-relevant application settings.  `OIDC_ADMIN_GROUP` and
`OIDC_USER_GROUP` use `""` for "not configured" (falsy in Python). -/
structure Settings where
  OIDC_REQUIRES_GROUP_CLAIM : Bool
  OIDC_GROUPS_CLAIM : String
  OIDC_ADMIN_GROUP : String
  OIDC_USER_GROUP : String
  OIDC_USER_CLAIM : String
  OIDC_NAME_CLAIM : String
  OIDC_SIGNUP_ENABLED : Bool
  OIDC_REMEMBER_ME : Bool
  deriving DecidableEq, Repr

/-- Oracle for the external collaborators: what `try_get_user` returns,
and whether each persistence call succeeds or raises. -/
structure Env where
  lookupResult : Option User
  createResult : Except Unit User
  commitResult : Except Unit Unit
  updateResult : Except Unit Unit

/-- The `required_claims` property: `{NAME_CLAIM, "email", USER_CLAIM}`,
plus `GROUPS_CLAIM` when `OIDC_REQUIRES_GROUP_CLAIM`. -/
def required_claims (s : Settings) : List String :=
  let base := [s.OIDC_NAME_CLAIM, "email", s.OIDC_USER_CLAIM]
  if s.OIDC_REQUIRES_GROUP_CLAIM then base ++ [s.OIDC_GROUPS_CLAIM] else base

/-- Python `self.required_claims.issubset(claims.keys())`. -/
def claimsSubset (s : Settings) (c : Claims) : Bool :=
  (required_claims s).all (fun k => hasKey c k)

/-- Python `claims.get(settings.OIDC_GROUPS_CLAIM, []) or []`. -/
def groupClaimValue (s : Settings) (c : Claims) : ClaimValue :=
  let raw := cget c s.OIDC_GROUPS_CLAIM (.vlist [])
  if truthy raw then raw else .vlist []

/-- The group-membership check phase: `none` means the warning-refusal
(`not (is_valid_user or is_admin)`), `some b` means execution continues
with `is_admin = b`.  With group checking disabled this is `some false`
(the initial `is_admin = False`). -/
def groupCheck (s : Settings) (c : Claims) : Option Bool :=
  if s.OIDC_REQUIRES_GROUP_CLAIM then
    let group_claim := groupClaimValue s c
    let is_admin :=
      if !(s.OIDC_ADMIN_GROUP == "") then pyIn s.OIDC_ADMIN_GROUP group_claim else false
    let is_valid_user :=
      if !(s.OIDC_USER_GROUP == "") then pyIn s.OIDC_USER_GROUP group_claim else true
    if !(is_valid_user || is_admin) then none else some is_admin
  else some false

/-- The username derivation in the provisioning branch:
`claims.get("preferred_username", claims.get("username", claims.get(USER_CLAIM)))`. -/
def deriveUsername (s : Settings) (c : Claims) : ClaimValue :=
  cget c "preferred_username" (cget c "username" (cget c s.OIDC_USER_CLAIM .vnull))

/-- The dictionary passed to `repos.users.create`. -/
def newUserRequest (s : Settings) (c : Claims) (is_admin : Bool) : UserCreate :=
  { username := deriveUsername s c
    password := "OIDC"
    full_name := cget c s.OIDC_NAME_CLAIM .vnull
    email := cget c "email" .vnull
    admin := is_admin
    auth_method := .OIDC }

/-- Body of the `if not user:` block: refuse when signup is disabled,
otherwise create the user and commit, catching any exception from either
call (`except Exception`) and refusing; on success issue the token. -/
def notFoundBranch (s : Settings) (c : Claims) (env : Env) (is_admin : Bool) :
    Except Unit (Option AccessToken) × List Event :=
  if !s.OIDC_SIGNUP_ENABLED then (.ok none, [])
  else
    let req := newUserRequest s c is_admin
    match env.createResult with
    | .error _ => (.ok none, [.create req])
    | .ok newUser =>
      match env.commitResult with
      | .error _ => (.ok none, [.create req, .commit])
      | .ok _ => (.ok (some ⟨newUser, s.OIDC_REMEMBER_ME⟩), [.create req, .commit])

/-- Body of the `if user:` block: when `OIDC_ADMIN_GROUP` is truthy and
the stored admin flag differs from `is_admin`, mutate the record and call
`repos.users.update` (NOT wrapped in any try/except: a raised exception
propagates), then issue the token. -/
def foundBranch (s : Settings) (env : Env) (u : User) (is_admin : Bool) :
    Except Unit (Option AccessToken) × List Event :=
  if !(s.OIDC_ADMIN_GROUP == "") && (u.admin != is_admin) then
    let u2 : User := { u with admin := is_admin }
    match env.updateResult with
    | .error _ => (.error (), [.update u2.id u2])
    | .ok _ => (.ok (some ⟨u2, s.OIDC_REMEMBER_ME⟩), [.update u2.id u2])
  else (.ok (some ⟨u, s.OIDC_REMEMBER_ME⟩), [])

/-- `OpenIDProvider.authenticate`, translated line by line.  The first
component is the returned value (`Except.error` = an uncaught exception
propagating); the second is the ordered list of effects performed. -/
def authenticate (s : Settings) (c : Claims) (env : Env) :
    Except Unit (Option AccessToken) × List Event :=
  if c.isEmpty then (.ok none, [])
  else if !(claimsSubset s c) then (.ok none, [])
  else
    match groupCheck s c with
    | none => (.ok none, [])
    | some is_admin =>
      let user := env.lookupResult
      let pre : List Event := [.lookup (cget c s.OIDC_USER_CLAIM .vnull)]
      if user.isNone then
        let r := notFoundBranch s c env is_admin
        (r.1, pre ++ r.2)
      else
        match user with
        | some u =>
          let r := foundBranch s env u is_admin
          (r.1, pre ++ r.2)
        | none => (.ok none, pre ++ [.warnDefensive])

/-- Writes to the user repository (create or update). -/
def isRepoWrite : Event → Bool
  | .create _ => true
  | .update _ _ => true
  | _ => false

/-- Any persistence-layer side effect: repository write or session
commit. -/
def isWrite : Event → Bool
  | .create _ => true
  | .update _ _ => true
  | .commit => true
  | _ => false

/-! Helper lemmas about the two user-handling branches. -/

lemma notFoundBranch_no_warn (s : Settings) (c : Claims) (env : Env) (a : Bool) :
    Event.warnDefensive ∉ (notFoundBranch s c env a).2 := by
  unfold notFoundBranch
  split
  · simp
  · cases hc : env.createResult with
    | error e => simp
    | ok u => cases hco : env.commitResult <;> simp

lemma foundBranch_no_warn (s : Settings) (env : Env) (u : User) (a : Bool) :
    Event.warnDefensive ∉ (foundBranch s env u a).2 := by
  unfold foundBranch
  split
  · cases hu : env.updateResult <;> simp
  · simp

lemma notFoundBranch_ok (s : Settings) (c : Claims) (env : Env) (a : Bool) :
    ∃ r, (notFoundBranch s c env a).1 = Except.ok r := by
  unfold notFoundBranch
  split
  · exact ⟨none, rfl⟩
  · cases hc : env.createResult with
    | error e => exact ⟨none, rfl⟩
    | ok u => cases hco : env.commitResult <;> exact ⟨_, rfl⟩

lemma foundBranch_ok (s : Settings) (env : Env) (u : User) (a : Bool)
    (h : env.updateResult = Except.ok ()) :
    ∃ r, (foundBranch s env u a).1 = Except.ok r := by
  unfold foundBranch
  rw [h]
  split
  · exact ⟨_, rfl⟩
  · exact ⟨_, rfl⟩

lemma notFoundBranch_signup_off (s : Settings) (c : Claims) (env : Env) (a : Bool)
    (h : s.OIDC_SIGNUP_ENABLED = false) :
    notFoundBranch s c env a = (Except.ok none, []) := by
  unfold notFoundBranch
  simp [h]

lemma notFoundBranch_persist_fail (s : Settings) (c : Claims) (env : Env) (a : Bool)
    (h : env.createResult = Except.error () ∨ env.commitResult = Except.error ()) :
    (notFoundBranch s c env a).1 = Except.ok none := by
  unfold notFoundBranch
  split
  · rfl
  · cases hc : env.createResult with
    | error e => rfl
    | ok u =>
      cases hco : env.commitResult with
      | error e => rfl
      | ok v =>
        rcases h with h | h
        · rw [hc] at h; exact absurd h (by simp)
        · rw [hco] at h; exact absurd h (by simp)

lemma authenticate_early_refusal (s : Settings) (c : Claims) (env : Env)
    (h : c.isEmpty = true ∨ claimsSubset s c = false ∨ groupCheck s c = none) :
    authenticate s c env = (Except.ok none, []) := by
  unfold authenticate
  rcases h with h | h | h
  · simp [h]
  · simp [h]
  · cases hc : c.isEmpty <;> simp [hc, h]

lemma authenticate_reached (s : Settings) (c : Claims) (env : Env) (is_admin : Bool)
    (h1 : c.isEmpty = false) (h2 : claimsSubset s c = true)
    (h3 : groupCheck s c = some is_admin) :
    authenticate s c env =
      match env.lookupResult with
      | none =>
        ((notFoundBranch s c env is_admin).1,
          Event.lookup (cget c s.OIDC_USER_CLAIM .vnull) :: (notFoundBranch s c env is_admin).2)
      | some u =>
        ((foundBranch s env u is_admin).1,
          Event.lookup (cget c s.OIDC_USER_CLAIM .vnull) :: (foundBranch s env u is_admin).2) := by
  unfold authenticate
  cases hl : env.lookupResult <;> simp [h1, h2, h3, hl]

/-! Concrete fixtures used by witnesses and counterexamples. -/

/-- Settings with group checking disabled but an admin group configured;
the user claim is the email claim (the default). -/
def sAdminNoReq : Settings :=
  ⟨false, "groups", "admins", "", "email", "name", true, false⟩

/-- Claims with only name and email, sufficient for `sAdminNoReq`. -/
def cAlice : Claims :=
  [("name", .vstr "Alice"), ("email", .vstr "alice@example.com")]

/-- Environment: an existing admin user is found and the update call
raises. -/
def envUpdateRaises : Env :=
  ⟨some ⟨1, true⟩, .error (), .error (), .error ()⟩

/-- Environment: an existing admin user is found and the update call
succeeds. -/
def envUpdateOk : Env :=
  ⟨some ⟨1, true⟩, .error (), .error (), .ok ()⟩

/-- Settings with group checking on, both groups configured. -/
def s4 : Settings :=
  ⟨true, "groups", "admin", "user", "email", "name", true, false⟩

/-- Claims of a member of the user group only. -/
def c4user : Claims :=
  [("name", .vstr "U"), ("email", .vstr "u@x.org"), ("groups", .vlist ["user"])]

/-- Environment where the matching stored user is not an admin. -/
def env4user : Env := ⟨some ⟨10, false⟩, .error (), .error (), .error ()⟩

/-- Claims of a member of the admin group only. -/
def c4admin : Claims :=
  [("name", .vstr "A"), ("email", .vstr "a@x.org"), ("groups", .vlist ["admin"])]

/-- Environment where the matching stored user is already an admin. -/
def env4admin : Env := ⟨some ⟨11, true⟩, .error (), .error (), .error ()⟩

/-- Claims of a member of neither configured group. -/
def c4none : Claims :=
  [("name", .vstr "N"), ("email", .vstr "n@x.org"), ("groups", .vlist ["other"])]

/-- Environment for the neither-group refusal scenario. -/
def env4none : Env := ⟨some ⟨12, false⟩, .error (), .error (), .error ()⟩

/-- Environment where the matching stored user is not yet an admin and
the update call succeeds. -/
def env4promote : Env := ⟨some ⟨11, false⟩, .error (), .error (), .ok ()⟩

/-- Settings for the provisioning scenarios (no group checking, signup
enabled, remember-me on). -/
def sSignup : Settings :=
  ⟨false, "groups", "", "", "email", "name", true, true⟩

/-- Claims for a new user with neither `preferred_username` nor
`username` claims. -/
def cBob : Claims :=
  [("name", .vstr "Bob"), ("email", .vstr "bob@x.org")]

/-- Environment: no user found; create and commit succeed. -/
def envCreateOk : Env := ⟨none, .ok ⟨7, false⟩, .ok (), .error ()⟩

/-- Environment: no user found; create raises. -/
def envCreateRaises : Env := ⟨none, .error (), .ok (), .error ()⟩

/-- Settings with signup disabled. -/
def sNoSignup : Settings :=
  ⟨false, "groups", "", "", "email", "name", false, false⟩

/-- Environment: no user found (nothing else is reached). -/
def envNotFound : Env := ⟨none, .error (), .error (), .error ()⟩

/-- C5: a claims map that is empty, or whose key set is not a superset of
the required claim set, makes `authenticate` refuse immediately: the
result is `None` and no repository lookup or write (no effect at all) is
performed. -/
theorem C5_missing_claims_refusal (s : Settings) (c : Claims) (env : Env)
    (h : c.isEmpty = true ∨ claimsSubset s c = false) :
    authenticate s c env = (Except.ok none, []) := by
  apply authenticate_early_refusal
  rcases h with h | h
  · exact Or.inl h
  · exact Or.inr (Or.inl h)

/-- C5 witness: the empty claims map is refused with no effects. -/
theorem C5_missing_claims_refusal_witness :
    authenticate sAdminNoReq [] envUpdateOk = (Except.ok none, []) :=
  C5_missing_claims_refusal sAdminNoReq [] envUpdateOk (Or.inl rfl)

/-- C7: when no existing OIDC user matches and signup is disabled,
`authenticate` refuses and performs no create, update or commit. -/
theorem C7_signup_disabled_refusal (s : Settings) (c : Claims) (env : Env)
    (h1 : env.lookupResult = none) (h2 : s.OIDC_SIGNUP_ENABLED = false) :
    (authenticate s c env).1 = Except.ok none ∧
      (authenticate s c env).2.all (fun e => !(isWrite e)) = true := by
  by_cases hc : c.isEmpty = true ∨ claimsSubset s c = false ∨ groupCheck s c = none
  · rw [authenticate_early_refusal s c env hc]
    exact ⟨rfl, rfl⟩
  · push_neg at hc
    obtain ⟨hc1, hc2, hc3⟩ := hc
    have hc1' : c.isEmpty = false := by simpa using hc1
    have hc2' : claimsSubset s c = true := by simpa using hc2
    obtain ⟨a, ha⟩ := Option.ne_none_iff_exists'.mp hc3
    rw [authenticate_reached s c env a hc1' hc2' ha, h1]
    rw [notFoundBranch_signup_off s c env a h2]
    exact ⟨rfl, rfl⟩

/-- C7 witness: with signup disabled and no stored user, the concrete
call refuses having performed only the lookup. -/
theorem C7_signup_disabled_refusal_witness :
    (authenticate sNoSignup cBob envNotFound).1 = Except.ok none ∧
      (authenticate sNoSignup cBob envNotFound).2.all (fun e => !(isWrite e)) = true :=
  C7_signup_disabled_refusal sNoSignup cBob envNotFound rfl rfl

lemma notFoundBranch_writes (s : Settings) (c : Claims) (env : Env) (a : Bool) :
    ((notFoundBranch s c env a).2.countP (fun e => isRepoWrite e)) ≤ 1 := by
  unfold notFoundBranch
  split
  · simp
  · cases hc : env.createResult with
    | error e => simp [List.countP_cons, isRepoWrite]
    | ok u => cases hco : env.commitResult <;> simp [List.countP_cons, isRepoWrite]

lemma foundBranch_writes (s : Settings) (env : Env) (u : User) (a : Bool) :
    ((foundBranch s env u a).2.countP (fun e => isRepoWrite e)) ≤ 1 := by
  unfold foundBranch
  split
  · cases hu : env.updateResult <;> simp [List.countP_cons, isRepoWrite]
  · simp

/-- C8: a single call of `authenticate` performs at most one write
(create or update) to the user repository, never both and never more
than one. -/
theorem C8_at_most_one_repo_write (s : Settings) (c : Claims) (env : Env) :
    ((authenticate s c env).2.countP (fun e => isRepoWrite e)) ≤ 1 := by
  by_cases hc : c.isEmpty = true ∨ claimsSubset s c = false ∨ groupCheck s c = none
  · rw [authenticate_early_refusal s c env hc]
    simp
  · push_neg at hc
    obtain ⟨hc1, hc2, hc3⟩ := hc
    have hc1' : c.isEmpty = false := by simpa using hc1
    have hc2' : claimsSubset s c = true := by simpa using hc2
    obtain ⟨a, ha⟩ := Option.ne_none_iff_exists'.mp hc3
    rw [authenticate_reached s c env a hc1' hc2' ha]
    cases hl : env.lookupResult with
    | none =>
      simp only [List.countP_cons, isRepoWrite]
      simpa using notFoundBranch_writes s c env a
    | some u =>
      simp only [List.countP_cons, isRepoWrite]
      simpa using foundBranch_writes s env u a

/-- C10: the final defensive branch (warn that the user's AuthMethod does
not match OIDC, then refuse) is unreachable: no execution of
`authenticate` emits the defensive warning. -/
theorem C10_defensive_branch_unreachable (s : Settings) (c : Claims) (env : Env) :
    Event.warnDefensive ∉ (authenticate s c env).2 := by
  by_cases hc : c.isEmpty = true ∨ claimsSubset s c = false ∨ groupCheck s c = none
  · rw [authenticate_early_refusal s c env hc]
    simp
  · push_neg at hc
    obtain ⟨hc1, hc2, hc3⟩ := hc
    have hc1' : c.isEmpty = false := by simpa using hc1
    have hc2' : claimsSubset s c = true := by simpa using hc2
    obtain ⟨a, ha⟩ := Option.ne_none_iff_exists'.mp hc3
    rw [authenticate_reached s c env a hc1' hc2' ha]
    cases hl : env.lookupResult with
    | none =>
      simp only [List.mem_cons, not_or]
      exact ⟨by simp, notFoundBranch_no_warn s c env a⟩
    | some u =>
      simp only [List.mem_cons, not_or]
      exact ⟨by simp, foundBranch_no_warn s env u a⟩

/-- C2 counterexample: with group checking off, an admin group configured
and an existing stored admin user, an exception raised by
`repos.users.update` propagates out of `authenticate` (the claim says no
persistence exception ever escapes). -/
theorem C2_counterexample :
    (authenticate sAdminNoReq cAlice envUpdateRaises).1 = Except.error () := rfl

/-- C2 amended: `authenticate` propagates no persistence exception except
one raised by `repos.users.update` in the admin-flag-sync branch (that
call is not wrapped in any try/except); whenever the update call does not
raise, every persistence exception (create, commit) is caught and
converted into a refusal. -/
theorem C2_amended_only_update_propagates (s : Settings) (c : Claims) (env : Env)
    (h : env.updateResult = Except.ok ()) :
    (authenticate s c env).1 ≠ Except.error () := by
  by_cases hc : c.isEmpty = true ∨ claimsSubset s c = false ∨ groupCheck s c = none
  · rw [authenticate_early_refusal s c env hc]
    simp
  · push_neg at hc
    obtain ⟨hc1, hc2, hc3⟩ := hc
    have hc1' : c.isEmpty = false := by simpa using hc1
    have hc2' : claimsSubset s c = true := by simpa using hc2
    obtain ⟨a, ha⟩ := Option.ne_none_iff_exists'.mp hc3
    rw [authenticate_reached s c env a hc1' hc2' ha]
    cases hl : env.lookupResult with
    | none =>
      obtain ⟨r, hr⟩ := notFoundBranch_ok s c env a
      simp only []
      rw [hr]
      simp
    | some u =>
      obtain ⟨r, hr⟩ := foundBranch_ok s env u a h
      simp only []
      rw [hr]
      simp

/-- C2 amended witness: when the update call succeeds, the demotion run
that raised in the counterexample instead completes without propagating
anything. -/
theorem C2_amended_only_update_propagates_witness :
    (authenticate sAdminNoReq cAlice envUpdateOk).1 ≠ Except.error () :=
  C2_amended_only_update_propagates sAdminNoReq cAlice envUpdateOk rfl

/-- C3: when no user is found and the repository create or the subsequent
commit raises, `authenticate` returns a refusal (`None`) and does not
re-raise. -/
theorem C3_provisioning_failure_refusal (s : Settings) (c : Claims) (env : Env)
    (h1 : env.lookupResult = none)
    (h2 : env.createResult = Except.error () ∨ env.commitResult = Except.error ()) :
    (authenticate s c env).1 = Except.ok none := by
  by_cases hc : c.isEmpty = true ∨ claimsSubset s c = false ∨ groupCheck s c = none
  · rw [authenticate_early_refusal s c env hc]
  · push_neg at hc
    obtain ⟨hc1, hc2, hc3⟩ := hc
    have hc1' : c.isEmpty = false := by simpa using hc1
    have hc2' : claimsSubset s c = true := by simpa using hc2
    obtain ⟨a, ha⟩ := Option.ne_none_iff_exists'.mp hc3
    rw [authenticate_reached s c env a hc1' hc2' ha, h1]
    exact notFoundBranch_persist_fail s c env a h2

/-- C3 witness: a concrete provisioning run whose create call raises ends
in a refusal. -/
theorem C3_provisioning_failure_refusal_witness :
    (authenticate sSignup cBob envCreateRaises).1 = Except.ok none :=
  C3_provisioning_failure_refusal sSignup cBob envCreateRaises rfl (Or.inl rfl)

/-- C9: when group checking is disabled but an admin group is configured,
`is_admin` is always `false`, so a successful login of an existing stored
admin user demotes them: the record is updated with `admin = false`
before the token is issued. -/
theorem C9_demotes_admin_without_group_checking (s : Settings) (c : Claims)
    (env : Env) (u : User)
    (h1 : s.OIDC_REQUIRES_GROUP_CLAIM = false)
    (h2 : s.OIDC_ADMIN_GROUP ≠ "")
    (h3 : c.isEmpty = false) (h4 : claimsSubset s c = true)
    (h5 : env.lookupResult = some u) (h6 : u.admin = true)
    (h7 : env.updateResult = Except.ok ()) :
    Event.update u.id ⟨u.id, false⟩ ∈ (authenticate s c env).2 ∧
      (authenticate s c env).1 = Except.ok (some ⟨⟨u.id, false⟩, s.OIDC_REMEMBER_ME⟩) := by
  have hg : groupCheck s c = some false := by simp [groupCheck, h1]
  have h2b : (s.OIDC_ADMIN_GROUP == "") = false := beq_eq_false_iff_ne.mpr h2
  have hb : foundBranch s env u false =
      (Except.ok (some ⟨⟨u.id, false⟩, s.OIDC_REMEMBER_ME⟩),
        [.update u.id ⟨u.id, false⟩]) := by
    unfold foundBranch
    simp [h2b, h6, h7]
  rw [authenticate_reached s c env false h3 h4 hg, h5]
  simp only []
  rw [hb]
  exact ⟨by simp, rfl⟩

/-- C9 witness: the concrete stored admin `⟨1, true⟩` is demoted on login
when group checking is off and `OIDC_ADMIN_GROUP` is `"admins"`. -/
theorem C9_demotes_admin_without_group_checking_witness :
    Event.update 1 ⟨1, false⟩ ∈ (authenticate sAdminNoReq cAlice envUpdateOk).2 ∧
      (authenticate sAdminNoReq cAlice envUpdateOk).1 =
        Except.ok (some ⟨⟨1, false⟩, false⟩) :=
  C9_demotes_admin_without_group_checking sAdminNoReq cAlice envUpdateOk ⟨1, true⟩
    rfl (by decide) rfl rfl rfl rfl rfl

/-- C1 counterexample: with group checking disabled
(`OIDC_REQUIRES_GROUP_CLAIM = false`) but an admin group configured, the
stored admin flag of an existing user is NOT left unchanged: the login
updates the record to `admin = false`.  The sync is keyed on
`OIDC_ADMIN_GROUP`, not on `OIDC_REQUIRES_GROUP_CLAIM`. -/
theorem C1_counterexample :
    sAdminNoReq.OIDC_REQUIRES_GROUP_CLAIM = false ∧
      Event.update 1 ⟨1, false⟩ ∈ (authenticate sAdminNoReq cAlice envUpdateOk).2 := by
  constructor
  · rfl
  · have ht : (authenticate sAdminNoReq cAlice envUpdateOk).2 =
        [.lookup (.vstr "alice@example.com"), .update 1 ⟨1, false⟩] := rfl
    rw [ht]
    simp

/-- C1 amended: for every call reaching the existing-user branch, the
stored admin flag is updated to the computed `is_admin` exactly when
`OIDC_ADMIN_GROUP` is configured (truthy) and the stored flag differs
from `is_admin` — independent of whether `OIDC_REQUIRES_GROUP_CLAIM` is
enabled; in all other cases the stored flag is left unchanged, and in
both cases the access token is then issued. -/
theorem C1_amended_sync_keyed_on_admin_group (s : Settings) (c : Claims)
    (env : Env) (u : User) (is_admin : Bool)
    (h1 : c.isEmpty = false) (h2 : claimsSubset s c = true)
    (h3 : groupCheck s c = some is_admin) (h4 : env.lookupResult = some u)
    (h5 : env.updateResult = Except.ok ()) :
    (s.OIDC_ADMIN_GROUP ≠ "" ∧ u.admin ≠ is_admin →
      Event.update u.id ⟨u.id, is_admin⟩ ∈ (authenticate s c env).2 ∧
        (authenticate s c env).1 =
          Except.ok (some ⟨⟨u.id, is_admin⟩, s.OIDC_REMEMBER_ME⟩)) ∧
    (s.OIDC_ADMIN_GROUP = "" ∨ u.admin = is_admin →
      (authenticate s c env).1 = Except.ok (some ⟨u, s.OIDC_REMEMBER_ME⟩) ∧
        ∀ i v, Event.update i v ∉ (authenticate s c env).2) := by
  rw [authenticate_reached s c env is_admin h1 h2 h3, h4]
  simp only []
  constructor
  · rintro ⟨ha, hd⟩
    have hab : (s.OIDC_ADMIN_GROUP == "") = false := beq_eq_false_iff_ne.mpr ha
    have hdb : (u.admin != is_admin) = true := bne_iff_ne.mpr hd
    have hb : foundBranch s env u is_admin =
        (Except.ok (some ⟨⟨u.id, is_admin⟩, s.OIDC_REMEMBER_ME⟩),
          [.update u.id ⟨u.id, is_admin⟩]) := by
      unfold foundBranch
      simp [hab, hdb, h5]
    rw [hb]
    exact ⟨by simp, rfl⟩
  · intro h
    have hcond : (!(s.OIDC_ADMIN_GROUP == "") && (u.admin != is_admin)) = false := by
      rcases h with h | h <;> simp [h]
    have hb : foundBranch s env u is_admin =
        (Except.ok (some ⟨u, s.OIDC_REMEMBER_ME⟩), []) := by
      unfold foundBranch
      simp only [hcond, Bool.false_eq_true, if_false]
    rw [hb]
    refine ⟨rfl, fun i v => ?_⟩
    simp

/-- C1 amended witness: with group checking on, a stored non-admin user
whose claims carry the admin group is promoted and the token carries the
updated record. -/
theorem C1_amended_sync_keyed_on_admin_group_witness :
    Event.update 11 ⟨11, true⟩ ∈ (authenticate s4 c4admin env4promote).2 ∧
      (authenticate s4 c4admin env4promote).1 =
        Except.ok (some ⟨⟨11, true⟩, false⟩) :=
  (C1_amended_sync_keyed_on_admin_group s4 c4admin env4promote ⟨11, false⟩ true
    rfl rfl rfl rfl rfl).1 ⟨by decide, by decide⟩

/-! Spec-side definitions for the group-policy refinement (C4), written
from the spec's wording ("the group list read from the `GROUPS_CLAIM`
claim, missing or null value treated as empty list"), to be compared with
`groupCheck`. -/

/-- Spec-side: the group list carried by the `GROUPS_CLAIM` claim, a
missing or null value treated as the empty list. -/
def specGroupList (s : Settings) (c : Claims) : List String :=
  match cget c s.OIDC_GROUPS_CLAIM .vnull with
  | .vlist l => l
  | _ => []

/-- Spec-side: `is_admin = ADMIN_GROUP configured AND ADMIN_GROUP in
group list`. -/
def specIsAdmin (s : Settings) (c : Claims) : Bool :=
  !(s.OIDC_ADMIN_GROUP == "") && (specGroupList s c).contains s.OIDC_ADMIN_GROUP

/-- Spec-side: `is_valid_user = USER_GROUP not configured OR USER_GROUP
in group list`. -/
def specIsValidUser (s : Settings) (c : Claims) : Bool :=
  (s.OIDC_USER_GROUP == "") || (specGroupList s c).contains s.OIDC_USER_GROUP

/-- Whether the `GROUPS_CLAIM` value is list-like (absent, null, or a
list — not a plain string, for which Python's `in` means substring and
the spec's "group list" reading does not apply). -/
def groupsValueListLike (s : Settings) (c : Claims) : Bool :=
  match cget c s.OIDC_GROUPS_CLAIM .vnull with
  | .vstr _ => false
  | _ => true

lemma pyIn_groupClaimValue (s : Settings) (c : Claims) (x : String)
    (hlist : groupsValueListLike s c = true) :
    pyIn x (groupClaimValue s c) = (specGroupList s c).contains x := by
  unfold groupsValueListLike at hlist
  unfold groupClaimValue specGroupList cget at *
  cases hf : List.find? (fun p => p.1 == s.OIDC_GROUPS_CLAIM) c with
  | none => simp [hf, truthy, pyIn]
  | some p =>
    rw [hf] at hlist
    simp only [] at hlist ⊢
    cases hv : p.2 with
    | vnull => simp [truthy, pyIn]
    | vstr t =>
      rw [hv] at hlist
      simp at hlist
    | vlist l =>
      cases l with
      | nil => simp [truthy, pyIn]
      | cons y t => simp [truthy, pyIn]

lemma groupCheck_eq_spec (s : Settings) (c : Claims)
    (hreq : s.OIDC_REQUIRES_GROUP_CLAIM = true)
    (hlist : groupsValueListLike s c = true) :
    groupCheck s c =
      (if specIsValidUser s c || specIsAdmin s c then some (specIsAdmin s c)
       else none) := by
  have hA : (if !(s.OIDC_ADMIN_GROUP == "")
      then pyIn s.OIDC_ADMIN_GROUP (groupClaimValue s c) else false) =
      specIsAdmin s c := by
    unfold specIsAdmin
    cases hb : (s.OIDC_ADMIN_GROUP == "") <;>
      simp [hb, pyIn_groupClaimValue s c _ hlist]
  have hV : (if !(s.OIDC_USER_GROUP == "")
      then pyIn s.OIDC_USER_GROUP (groupClaimValue s c) else true) =
      specIsValidUser s c := by
    unfold specIsValidUser
    cases hb : (s.OIDC_USER_GROUP == "") <;>
      simp [hb, pyIn_groupClaimValue s c _ hlist]
  unfold groupCheck
  rw [hreq]
  simp only [if_true]
  rw [hA, hV]
  cases hVA : (specIsValidUser s c || specIsAdmin s c) <;> simp [hVA]

/-- C4: with `OIDC_REQUIRES_GROUP_CLAIM` on, the group phase computes
exactly the spec's `is_admin` and `is_valid_user` over the group list
(missing/null treated as empty) and refuses unless
`is_valid_user OR is_admin`; concretely, a user in only the user group
succeeds with admin flag false, a user in only the admin group succeeds
with admin flag true, and a user in neither configured group is
refused. -/
theorem C4_group_policy :
    (∀ s c, s.OIDC_REQUIRES_GROUP_CLAIM = true → groupsValueListLike s c = true →
      groupCheck s c =
        (if specIsValidUser s c || specIsAdmin s c then some (specIsAdmin s c)
         else none)) ∧
    authenticate s4 c4user env4user =
      (Except.ok (some ⟨⟨10, false⟩, false⟩), [.lookup (.vstr "u@x.org")]) ∧
    authenticate s4 c4admin env4admin =
      (Except.ok (some ⟨⟨11, true⟩, false⟩), [.lookup (.vstr "a@x.org")]) ∧
    authenticate s4 c4none env4none = (Except.ok none, []) :=
  ⟨fun s c => groupCheck_eq_spec s c, rfl, rfl, rfl⟩

/-- C4 witness: the refinement applied to the concrete user-group-only
scenario evaluates to passing the check as a non-admin. -/
theorem C4_group_policy_witness : groupCheck s4 c4user = some false :=
  C4_group_policy.1 s4 c4user rfl rfl

lemma cget_absent (c : Claims) (k : String) (d : ClaimValue)
    (h : hasKey c k = false) : cget c k d = d := by
  unfold cget
  cases hf : List.find? (fun p => p.1 == k) c with
  | none => rfl
  | some p =>
    exfalso
    have hp := List.find?_some hf
    have hm := List.mem_of_find?_eq_some hf
    have ht : hasKey c k = true := by
      unfold hasKey
      exact List.any_eq_true.mpr ⟨p, hm, hp⟩
    rw [ht] at h
    cases h

lemma cget_present (c : Claims) (k : String) (d d' : ClaimValue)
    (h : hasKey c k = true) : cget c k d = cget c k d' := by
  unfold cget
  cases hf : List.find? (fun p => p.1 == k) c with
  | some p => rfl
  | none =>
    exfalso
    rw [List.find?_eq_none] at hf
    unfold hasKey at h
    obtain ⟨p, hm, hp⟩ := List.any_eq_true.mp h
    exact absurd hp (by simpa using hf p hm)

/-- Spec-side: the username for a provisioned user, preferring in order
the claim `preferred_username`, then the claim `username`, then the value
of claim `USER_CLAIM`. -/
def specDerivedUsername (s : Settings) (c : Claims) : ClaimValue :=
  if hasKey c "preferred_username" then cget c "preferred_username" .vnull
  else if hasKey c "username" then cget c "username" .vnull
  else cget c s.OIDC_USER_CLAIM .vnull

lemma deriveUsername_spec (s : Settings) (c : Claims) :
    deriveUsername s c = specDerivedUsername s c := by
  unfold deriveUsername specDerivedUsername
  by_cases h1 : hasKey c "preferred_username" = true
  · rw [if_pos h1]
    exact cget_present c _ _ _ h1
  · have h1' : hasKey c "preferred_username" = false := by simpa using h1
    rw [if_neg (by simp [h1']), cget_absent c _ _ h1']
    by_cases h2 : hasKey c "username" = true
    · rw [if_pos h2]
      exact cget_present c _ _ _ h2
    · have h2' : hasKey c "username" = false := by simpa using h2
      rw [if_neg (by simp [h2']), cget_absent c _ _ h2']

/-- C6: when no existing OIDC user matches and signup is enabled, a user
is created whose username follows the spec's precedence
(`preferred_username` > `username` > `USER_CLAIM` value), with the
placeholder password marker `"OIDC"`, full name from `NAME_CLAIM`, email
from the `email` claim, admin flag equal to the computed `is_admin`, and
auth-method OIDC; on successful persistence the session artifact for the
newly created user is returned. -/
theorem C6_new_user_provisioning (s : Settings) (c : Claims) (env : Env)
    (u : User) (is_admin : Bool)
    (h1 : c.isEmpty = false) (h2 : claimsSubset s c = true)
    (h3 : groupCheck s c = some is_admin) (h4 : env.lookupResult = none)
    (h5 : s.OIDC_SIGNUP_ENABLED = true)
    (h6 : env.createResult = Except.ok u) (h7 : env.commitResult = Except.ok ()) :
    Event.create
        { username := specDerivedUsername s c
          password := "OIDC"
          full_name := cget c s.OIDC_NAME_CLAIM .vnull
          email := cget c "email" .vnull
          admin := is_admin
          auth_method := AuthMethod.OIDC } ∈ (authenticate s c env).2 ∧
      (authenticate s c env).1 = Except.ok (some ⟨u, s.OIDC_REMEMBER_ME⟩) := by
  have hreq : newUserRequest s c is_admin =
      { username := specDerivedUsername s c
        password := "OIDC"
        full_name := cget c s.OIDC_NAME_CLAIM .vnull
        email := cget c "email" .vnull
        admin := is_admin
        auth_method := AuthMethod.OIDC } := by
    unfold newUserRequest
    rw [deriveUsername_spec]
  have hb : notFoundBranch s c env is_admin =
      (Except.ok (some ⟨u, s.OIDC_REMEMBER_ME⟩),
        [.create (newUserRequest s c is_admin), .commit]) := by
    unfold notFoundBranch
    simp [h5, h6, h7]
  rw [authenticate_reached s c env is_admin h1 h2 h3, h4]
  simp only []
  rw [hb, ← hreq]
  constructor
  · simp
  · rfl

/-- C6 witness: the concrete claims without `preferred_username` or
`username` provision a user named by the `USER_CLAIM` (email) value, and
the new user's token is returned. -/
theorem C6_new_user_provisioning_witness :
    Event.create
        { username := ClaimValue.vstr "bob@x.org"
          password := "OIDC"
          full_name := ClaimValue.vstr "Bob"
          email := ClaimValue.vstr "bob@x.org"
          admin := false
          auth_method := AuthMethod.OIDC } ∈
        (authenticate sSignup cBob envCreateOk).2 ∧
      (authenticate sSignup cBob envCreateOk).1 =
        Except.ok (some ⟨⟨7, false⟩, true⟩) :=
  C6_new_user_provisioning sSignup cBob envCreateOk ⟨7, false⟩ false
    rfl rfl rfl rfl rfl rfl rfl
